import Mathlib

/-!
Shallow embedding of `object-fit-videos.js` (an `object-fit` / `object-position`
polyfill for `<video>` elements) and proofs about its sizing engine, style
extraction, position resolution, retry loop, resize throttling and entry-point
argument handling.

Numbers: DOM `clientWidth` / `clientHeight` / `videoWidth` / `videoHeight` are
non-negative integers, modelled as `ℕ`; intermediate ratio arithmetic is done in
`ℚ`; JavaScript `Math.round x` is `⌊x + 1/2⌋` (round half toward +∞), applied
pixel values live in `ℤ`.
-/

namespace ObjectFitVideos

/-- `listStartsWith l pat` is `true` iff `pat` is an initial segment of `l`. -/
def listStartsWith : List Char → List Char → Bool
  | _, [] => true
  | [], _ :: _ => false
  | a :: as, b :: bs => a == b && listStartsWith as bs

/-- `listHasSub l pat`: `pat` occurs as a contiguous sublist of `l`. -/
def listHasSub : List Char → List Char → Bool
  | l, pat =>
    match l with
    | [] => listStartsWith [] pat
    | _ :: as => listStartsWith l pat || listHasSub as pat

/-- JavaScript truthiness of `~s.indexOf(pat)`: `true` iff `pat` occurs as a
substring of `s` (case-sensitive). -/
def strContains (s pat : String) : Bool :=
  listHasSub s.data pat.data

/-- The style property map built by `getStyle`'s regex loop: JS object keys
`object-fit`, `object-position`, `object-position-x`, `object-position-y`,
each either absent (`none`, JS `undefined`) or a string value. -/
structure Props where
  objectFit : Option String := none
  objectPosition : Option String := none
  objectPositionX : Option String := none
  objectPositionY : Option String := none
deriving Repr, DecidableEq

/-- `parsePosition` from the source: split the `object-position` value into
`object-position-x` / `object-position-y` by case-sensitive substring tests,
`left` before `right` (else `center`) and `top` before `bottom` (else
`center`).  The source is only ever called with `object-position` present;
on an absent value the map is returned unchanged. -/
def parsePosition (style : Props) : Props :=
  match style.objectPosition with
  | none => style
  | some p =>
    let style1 :=
      if strContains p "left" then { style with objectPositionX := some "left" }
      else if strContains p "right" then { style with objectPositionX := some "right" }
      else { style with objectPositionX := some "center" }
    if strContains p "top" then { style1 with objectPositionY := some "top" }
    else if strContains p "bottom" then { style1 with objectPositionY := some "bottom" }
    else { style1 with objectPositionY := some "center" }

/-- `getStyle`, at the level of the extracted property map: after the regex
loop has produced `props`, the position is expanded via `parsePosition`
exactly when an `object-position` value is present. -/
def getStyle (props : Props) : Props :=
  if props.objectPosition.isSome then parsePosition props else props

/-- JavaScript `Math.round`: round half toward positive infinity. -/
def jsRound (x : ℚ) : ℤ :=
  ⌊x + 1 / 2⌋

/-- The branch condition of `doWork`:
`videoRatio < wrapRatio ? style['object-fit'] === 'contain' : style['object-fit'] === 'cover'`. -/
def heightConstrained (videoRatio wrapRatio : ℚ) (fit : Option String) : Bool :=
  if videoRatio < wrapRatio then fit == some "contain" else fit == some "cover"

/-- The explicit pixel styles `doWork` writes onto the video element. -/
structure CssBox where
  width : ℤ
  height : ℤ
  marginLeft : ℤ
  marginTop : ℤ
deriving Repr, DecidableEq

/-- `doWork` from the source: compute the video and wrapper aspect ratios,
reset both margins to 0, then either size to the wrapper height (width
`round(wrapHeight * videoRatio)`, horizontal margin from `object-position-x`)
or to the wrapper width (height `round(wrapWidth / videoRatio)`, vertical
margin from `object-position-y`).  In the source the first branch's local is
named `newHeight` even though it is the new width; the name is kept. -/
def doWork (videoWidth videoHeight wrapWidth wrapHeight : ℕ) (style : Props) : CssBox :=
  let videoRatio : ℚ := (videoWidth : ℚ) / (videoHeight : ℚ)
  let wrapRatio : ℚ := (wrapWidth : ℚ) / (wrapHeight : ℚ)
  if heightConstrained videoRatio wrapRatio style.objectFit then
    let newHeight : ℚ := (wrapHeight : ℚ) * videoRatio
    { width := jsRound newHeight
      height := (wrapHeight : ℤ)
      marginLeft :=
        if style.objectPositionX == some "left" then 0
        else if style.objectPositionX == some "right" then
          jsRound ((wrapWidth : ℚ) - newHeight)
        else jsRound (((wrapWidth : ℚ) - newHeight) / 2)
      marginTop := 0 }
  else
    let newWidth : ℚ := (wrapWidth : ℚ) / videoRatio
    { width := (wrapWidth : ℤ)
      height := jsRound newWidth
      marginLeft := 0
      marginTop :=
        if style.objectPositionY == some "top" then 0
        else if style.objectPositionY == some "bottom" then
          jsRound ((wrapHeight : ℚ) - newWidth)
        else jsRound (((wrapHeight : ℚ) - newWidth) / 2) }

/-- Outcome of one invocation of `startWork`: either it reschedules itself
with `setTimeout(startWork, 50)` and does nothing else, or it runs `doWork`
(mutating the element's style) and attaches the dimension monitor. -/
inductive StartWorkResult where
  | retry (delay : ℕ)
  | applied (css : CssBox)
deriving Repr, DecidableEq

/-- One invocation of `startWork`: read the element's intrinsic dimensions;
if either is `0` (JS `!videoWidth || !videoHeight`), reschedule after 50 ms
and perform no style mutation; otherwise run `doWork`. -/
def startWork (elVideoWidth elVideoHeight wrapWidth wrapHeight : ℕ)
    (style : Props) : StartWorkResult :=
  if elVideoWidth = 0 ∨ elVideoHeight = 0 then
    .retry 50
  else
    .applied (doWork elVideoWidth elVideoHeight wrapWidth wrapHeight style)

/-- Observable DOM side effects of `fitIt` up to the first `startWork` call. -/
inductive DomAction where
  | wrapElement
  | normalizeStyles
  | addListener (target event : String)
  | removeListener (target event : String)
  | startWorkCall
deriving Repr, DecidableEq

/-- `fitIt` from the source, as the sequence of DOM side effects it performs:
return immediately when `object-fit` is `fill`; otherwise create and insert
the wrapper, normalize the element's styles, attach the `loadedmetadata` and
`optimizedResize` listeners, and if `readyState >= 1` drop the metadata
listener and call `startWork` at once. -/
def fitIt (style : Props) (readyState : ℕ) : List DomAction :=
  if style.objectFit == some "fill" then []
  else
    DomAction.wrapElement :: DomAction.normalizeStyles ::
    DomAction.addListener "element" "loadedmetadata" ::
    DomAction.addListener "window" "optimizedResize" ::
    (if 1 ≤ readyState then
        [DomAction.removeListener "element" "loadedmetadata", DomAction.startWorkCall]
      else [])

/-- The per-element body of the entry point's loop: extract the style map;
only if `object-fit` or `object-position` is present (JS truthiness of the
regex-captured, hence non-empty, values), default `object-fit` to `fill` and
hand the element to `fitIt`; otherwise do nothing at all. -/
def initVideoElement (props : Props) (readyState : ℕ) : List DomAction :=
  let style := getStyle props
  if style.objectFit.isSome || style.objectPosition.isSome then
    fitIt { style with objectFit := some (style.objectFit.getD "fill") } readyState
  else []

/-- The argument accepted by the entry point, modelling the JS value:
`undefined`, a string, a single element, or an array-like collection
(elements are identifiers). -/
inductive VideoArg where
  | undef
  | sel (s : String)
  | single (e : ℕ)
  | coll (es : List ℕ)
deriving Repr, DecidableEq

/-- Argument normalization of `initialize`:
`videos = videos ? videos : 'video'` (JS truthiness: `undefined` and the
empty string are falsy), then a string is passed to
`document.querySelectorAll`, a value without `length` is wrapped in a
one-element array, and a collection is used as is.  `doc` models
`document.querySelectorAll`. -/
def resolveVideos (doc : String → List ℕ) (arg : VideoArg) : List ℕ :=
  let arg1 :=
    match arg with
    | .undef => VideoArg.sel "video"
    | .sel s => if s = "" then VideoArg.sel "video" else VideoArg.sel s
    | a => a
  match arg1 with
  | .undef => doc "video"
  | .sel s => doc s
  | .single e => [e]
  | .coll es => es

/-- State of the `throttle` closure: the `running` flag, whether an
animation-frame callback is currently scheduled, and how many times the
synthetic event has been dispatched. -/
structure ThrottleState where
  running : Bool
  framePending : Bool
  dispatchCount : ℕ
deriving Repr, DecidableEq

/-- Initial throttle state: `running = false`, nothing scheduled. -/
def initThrottle : ThrottleState :=
  { running := false, framePending := false, dispatchCount := 0 }

/-- Handler for one occurrence of the source event: if `running`, return
immediately (the occurrence is dropped); otherwise set `running` and schedule
one animation-frame callback. -/
def sourceEvent (s : ThrottleState) : ThrottleState :=
  if s.running then s
  else { s with running := true, framePending := true }

/-- The animation-frame tick: if a callback is scheduled, it dispatches the
synthetic event once and clears `running`; otherwise nothing happens. -/
def frameTick (s : ThrottleState) : ThrottleState :=
  if s.framePending then
    { running := false, framePending := false, dispatchCount := s.dispatchCount + 1 }
  else s

/-- The full entry-point loop: resolve the argument to a list of elements and
run the per-element body on each. -/
def initVideos (doc : String → List ℕ) (styleOf : ℕ → Props) (readyOf : ℕ → ℕ)
    (arg : VideoArg) : List (ℕ × List DomAction) :=
  (resolveVideos doc arg).map fun e => (e, initVideoElement (styleOf e) (readyOf e))

/-- A concrete document for counterexamples: exactly one video element,
matched by the selector `"video"` and by nothing else. -/
def docCex : String → List ℕ :=
  fun s => if s = "video" then [1] else []

/-! ## Helper lemmas -/

/-- `Math.round x ≤ n` whenever `x ≤ n` for an integer `n`. -/
theorem jsRound_le_of_le {x : ℚ} {n : ℤ} (h : x ≤ (n : ℚ)) : jsRound x ≤ n := by
  have h1 : x + 1 / 2 < ((n + 1 : ℤ) : ℚ) := by push_cast; linarith
  have h2 := Int.floor_lt.mpr h1
  unfold jsRound
  omega

/-- `n ≤ Math.round x` whenever `n ≤ x` for an integer `n`. -/
theorem le_jsRound_of_le {x : ℚ} {n : ℤ} (h : (n : ℚ) ≤ x) : n ≤ jsRound x := by
  unfold jsRound
  exact Int.le_floor.mpr (by linarith)

/-- When the branch condition is true, `doWork` sizes to the wrapper height:
explicit height is the wrapper client height and the width is
`round(wrapHeight * videoRatio)`. -/
theorem doWork_height_branch (vw vh ww wh : ℕ) (st : Props)
    (h : heightConstrained ((vw : ℚ) / (vh : ℚ)) ((ww : ℚ) / (wh : ℚ)) st.objectFit = true) :
    (doWork vw vh ww wh st).width = jsRound ((wh : ℚ) * ((vw : ℚ) / (vh : ℚ))) ∧
    (doWork vw vh ww wh st).height = (wh : ℤ) := by
  simp only [doWork, h, if_true]
  exact ⟨trivial, trivial⟩

/-- When the branch condition is false, `doWork` sizes to the wrapper width:
explicit width is the wrapper client width and the height is
`round(wrapWidth / videoRatio)`. -/
theorem doWork_width_branch (vw vh ww wh : ℕ) (st : Props)
    (h : heightConstrained ((vw : ℚ) / (vh : ℚ)) ((ww : ℚ) / (wh : ℚ)) st.objectFit = false) :
    (doWork vw vh ww wh st).width = (ww : ℤ) ∧
    (doWork vw vh ww wh st).height = jsRound ((ww : ℚ) / ((vw : ℚ) / (vh : ℚ))) := by
  simp only [doWork, h, Bool.false_eq_true, if_false]
  exact ⟨trivial, trivial⟩

/-- `parsePosition` never touches the `object-fit` entry. -/
theorem parsePosition_objectFit (p : Props) : (parsePosition p).objectFit = p.objectFit := by
  unfold parsePosition
  cases p.objectPosition with
  | none => rfl
  | some s => dsimp only; split_ifs <;> rfl

/-! ## Claim theorems -/

/-- C1: for every positive intrinsic video size and positive wrapper client
size, `doWork` with `fit=contain` produces explicit width and height that fit
entirely within the wrapper box on both axes, touching (equal to the wrapper
dimension) on at least one axis; with `fit=cover` it produces width and height
that fully cover the wrapper box on both axes, with at most one axis strictly
exceeding its wrapper dimension. -/
theorem doWork_contain_cover_bounds (vw vh ww wh : ℕ)
    (hvw : 0 < vw) (hvh : 0 < vh) (_hww : 0 < ww) (hwh : 0 < wh) (st : Props) :
    (st.objectFit = some "contain" →
      (doWork vw vh ww wh st).width ≤ (ww : ℤ) ∧
      (doWork vw vh ww wh st).height ≤ (wh : ℤ) ∧
      ((doWork vw vh ww wh st).width = (ww : ℤ) ∨
        (doWork vw vh ww wh st).height = (wh : ℤ))) ∧
    (st.objectFit = some "cover" →
      (ww : ℤ) ≤ (doWork vw vh ww wh st).width ∧
      (wh : ℤ) ≤ (doWork vw vh ww wh st).height ∧
      ¬((ww : ℤ) < (doWork vw vh ww wh st).width ∧
        (wh : ℤ) < (doWork vw vh ww wh st).height)) := by
  have hvh' : (0 : ℚ) < (vh : ℚ) := by exact_mod_cast hvh
  have hwh' : (0 : ℚ) < (wh : ℚ) := by exact_mod_cast hwh
  have hvw' : (0 : ℚ) < (vw : ℚ) := by exact_mod_cast hvw
  have hvr : (0 : ℚ) < (vw : ℚ) / (vh : ℚ) := by positivity
  have hkey : (wh : ℚ) * ((ww : ℚ) / (wh : ℚ)) = (ww : ℚ) := by field_simp
  constructor
  · intro hfit
    rcases lt_or_le ((vw : ℚ) / (vh : ℚ)) ((ww : ℚ) / (wh : ℚ)) with hlt | hge
    · have hc : heightConstrained ((vw : ℚ) / (vh : ℚ)) ((ww : ℚ) / (wh : ℚ))
          st.objectFit = true := by
        rw [hfit]; unfold heightConstrained; rw [if_pos hlt]; rfl
      obtain ⟨hw, hh⟩ := doWork_height_branch vw vh ww wh st hc
      have hlt2 : (wh : ℚ) * ((vw : ℚ) / (vh : ℚ)) < (ww : ℚ) :=
        calc (wh : ℚ) * ((vw : ℚ) / (vh : ℚ))
            < (wh : ℚ) * ((ww : ℚ) / (wh : ℚ)) := mul_lt_mul_of_pos_left hlt hwh'
          _ = (ww : ℚ) := hkey
      refine ⟨?_, ?_, Or.inr hh⟩
      · rw [hw]; exact jsRound_le_of_le (le_of_lt hlt2)
      · rw [hh]
    · have hc : heightConstrained ((vw : ℚ) / (vh : ℚ)) ((ww : ℚ) / (wh : ℚ))
          st.objectFit = false := by
        rw [hfit]; unfold heightConstrained; rw [if_neg (not_lt.mpr hge)]; rfl
      obtain ⟨hw, hh⟩ := doWork_width_branch vw vh ww wh st hc
      have hle2 : (ww : ℚ) / ((vw : ℚ) / (vh : ℚ)) ≤ (wh : ℚ) := by
        rw [div_le_iff₀ hvr]
        calc (ww : ℚ) = (wh : ℚ) * ((ww : ℚ) / (wh : ℚ)) := hkey.symm
          _ ≤ (wh : ℚ) * ((vw : ℚ) / (vh : ℚ)) :=
            mul_le_mul_of_nonneg_left hge (le_of_lt hwh')
      refine ⟨?_, ?_, Or.inl hw⟩
      · rw [hw]
      · rw [hh]; exact jsRound_le_of_le hle2
  · intro hfit
    rcases lt_or_le ((vw : ℚ) / (vh : ℚ)) ((ww : ℚ) / (wh : ℚ)) with hlt | hge
    · have hc : heightConstrained ((vw : ℚ) / (vh : ℚ)) ((ww : ℚ) / (wh : ℚ))
          st.objectFit = false := by
        rw [hfit]; unfold heightConstrained; rw [if_pos hlt]; rfl
      obtain ⟨hw, hh⟩ := doWork_width_branch vw vh ww wh st hc
      have hge2 : (wh : ℚ) ≤ (ww : ℚ) / ((vw : ℚ) / (vh : ℚ)) := by
        rw [le_div_iff₀ hvr]
        calc (wh : ℚ) * ((vw : ℚ) / (vh : ℚ))
            ≤ (wh : ℚ) * ((ww : ℚ) / (wh : ℚ)) :=
              mul_le_mul_of_nonneg_left (le_of_lt hlt) (le_of_lt hwh')
          _ = (ww : ℚ) := hkey
      refine ⟨?_, ?_, ?_⟩
      · rw [hw]
      · rw [hh]; exact le_jsRound_of_le hge2
      · intro hcon; rw [hw] at hcon; exact lt_irrefl _ hcon.1
    · have hc : heightConstrained ((vw : ℚ) / (vh : ℚ)) ((ww : ℚ) / (wh : ℚ))
          st.objectFit = true := by
        rw [hfit]; unfold heightConstrained; rw [if_neg (not_lt.mpr hge)]; rfl
      obtain ⟨hw, hh⟩ := doWork_height_branch vw vh ww wh st hc
      have hge2 : (ww : ℚ) ≤ (wh : ℚ) * ((vw : ℚ) / (vh : ℚ)) :=
        calc (ww : ℚ) = (wh : ℚ) * ((ww : ℚ) / (wh : ℚ)) := hkey.symm
          _ ≤ (wh : ℚ) * ((vw : ℚ) / (vh : ℚ)) :=
            mul_le_mul_of_nonneg_left hge (le_of_lt hwh')
      refine ⟨?_, ?_, ?_⟩
      · rw [hw]; exact le_jsRound_of_le hge2
      · rw [hh]
      · intro hcon; rw [hh] at hcon; exact lt_irrefl _ hcon.2

/-- Witness for C1 at a concrete input (4:3 video in a 100×90 wrapper,
`fit=contain`). -/
theorem doWork_contain_cover_bounds_witness :
    (0 : ℕ) < 4 ∧
    ((doWork 4 3 100 90 { objectFit := some "contain" }).width ≤ (100 : ℤ) ∧
      (doWork 4 3 100 90 { objectFit := some "contain" }).height ≤ (90 : ℤ) ∧
      ((doWork 4 3 100 90 { objectFit := some "contain" }).width = (100 : ℤ) ∨
        (doWork 4 3 100 90 { objectFit := some "contain" }).height = (90 : ℤ))) :=
  ⟨by decide,
    (doWork_contain_cover_bounds 4 3 100 90 (by decide) (by decide) (by decide) (by decide)
        { objectFit := some "contain" }).1 rfl⟩

/-- C2: `doWork` selects the height-constrained branch (explicit height =
wrapper client height, width = `round(wrapHeight * videoRatio)`) exactly when
(`videoRatio < wrapRatio` and fit is `contain`) or (`videoRatio ≥ wrapRatio`
and fit is `cover`); otherwise it selects the width-constrained branch
(explicit width = wrapper client width, height =
`round(wrapWidth / videoRatio)`). -/
theorem doWork_branch_selection (vw vh ww wh : ℕ)
    (_hvw : 0 < vw) (_hvh : 0 < vh) (_hww : 0 < ww) (_hwh : 0 < wh)
    (st : Props) (fit : String) (hfit : st.objectFit = some fit)
    (_hf : fit = "contain" ∨ fit = "cover") :
    (heightConstrained ((vw : ℚ) / (vh : ℚ)) ((ww : ℚ) / (wh : ℚ)) st.objectFit = true ↔
      ((vw : ℚ) / (vh : ℚ) < (ww : ℚ) / (wh : ℚ) ∧ fit = "contain") ∨
      ((ww : ℚ) / (wh : ℚ) ≤ (vw : ℚ) / (vh : ℚ) ∧ fit = "cover")) ∧
    (heightConstrained ((vw : ℚ) / (vh : ℚ)) ((ww : ℚ) / (wh : ℚ)) st.objectFit = true →
      (doWork vw vh ww wh st).height = (wh : ℤ) ∧
      (doWork vw vh ww wh st).width = jsRound ((wh : ℚ) * ((vw : ℚ) / (vh : ℚ)))) ∧
    (heightConstrained ((vw : ℚ) / (vh : ℚ)) ((ww : ℚ) / (wh : ℚ)) st.objectFit = false →
      (doWork vw vh ww wh st).width = (ww : ℤ) ∧
      (doWork vw vh ww wh st).height = jsRound ((ww : ℚ) / ((vw : ℚ) / (vh : ℚ)))) := by
  refine ⟨?_,
    fun hc => ⟨(doWork_height_branch vw vh ww wh st hc).2,
      (doWork_height_branch vw vh ww wh st hc).1⟩,
    fun hc => doWork_width_branch vw vh ww wh st hc⟩
  rw [hfit]
  unfold heightConstrained
  rcases lt_or_le ((vw : ℚ) / (vh : ℚ)) ((ww : ℚ) / (wh : ℚ)) with h | h
  · rw [if_pos h]
    simp only [beq_iff_eq, Option.some.injEq]
    constructor
    · exact fun hf' => Or.inl ⟨h, hf'⟩
    · rintro (⟨_, hf'⟩ | ⟨hle, _⟩)
      · exact hf'
      · exact absurd h (not_lt.mpr hle)
  · rw [if_neg (not_lt.mpr h)]
    simp only [beq_iff_eq, Option.some.injEq]
    constructor
    · exact fun hf' => Or.inr ⟨h, hf'⟩
    · rintro (⟨hlt, _⟩ | ⟨_, hf'⟩)
      · exact absurd hlt (not_lt.mpr h)
      · exact hf'

/-- Witness for C2 at a concrete input: a 16:9 video in a 4:3 wrapper with
`fit=cover` is height-constrained. -/
theorem doWork_branch_selection_witness :
    heightConstrained (((1920 : ℕ) : ℚ) / ((1080 : ℕ) : ℚ))
      (((400 : ℕ) : ℚ) / ((300 : ℕ) : ℚ)) (some "cover") = true :=
  (doWork_branch_selection 1920 1080 400 300 (by decide) (by decide) (by decide) (by decide)
      { objectFit := some "cover" } "cover" rfl (Or.inr rfl)).1.mpr
    (Or.inr ⟨by norm_num, rfl⟩)

/-- C3: a 1920×1080 video in a 400×300 wrapper with `fit=cover` and no
declared position takes the height-constrained branch and gets explicit
height 300px, width `round(300 * 1920/1080) = 533`px, `marginTop = 0` and
`marginLeft = round((400 - 533.33) / 2) = -67`px. -/
theorem doWork_cover_1920x1080_in_400x300 :
    heightConstrained (((1920 : ℕ) : ℚ) / ((1080 : ℕ) : ℚ))
        (((400 : ℕ) : ℚ) / ((300 : ℕ) : ℚ)) (some "cover") = true ∧
    doWork 1920 1080 400 300 { objectFit := some "cover" } =
      { width := 533, height := 300, marginLeft := -67, marginTop := 0 } := by
  constructor <;> norm_num [heightConstrained, doWork, jsRound]

/-- C4 counterexample: for `fit=fill` the element is NOT wrapped — `fitIt`
returns before the wrapper is created, and an element with only an
`object-position` (default fill) gets no actions at all from the
per-element body. -/
theorem fitIt_fill_not_wrapped_cex :
    ¬ DomAction.wrapElement ∈ fitIt { objectFit := some "fill" } 4 ∧
    ¬ DomAction.wrapElement ∈ initVideoElement { objectPosition := some "top" } 4 := by
  decide

/-- C4 amended: for every target whose FitIntent has `fit = fill` (including
the default fill assigned when only an object-position is declared), the Fit
Engine performs no action at all — in particular the element is NOT wrapped:
`fitIt` returns before creating the wrapper. -/
theorem fitIt_fill_noop :
    (∀ (st : Props) (rs : ℕ), st.objectFit = some "fill" → fitIt st rs = []) ∧
    (∀ (p : Props) (rs : ℕ), p.objectFit = none → initVideoElement p rs = []) := by
  have h1 : ∀ (st : Props) (rs : ℕ), st.objectFit = some "fill" → fitIt st rs = [] := by
    intro st rs h
    simp [fitIt, h]
  refine ⟨h1, ?_⟩
  intro p rs hp
  have hf1 : (getStyle p).objectFit = none := by
    unfold getStyle
    split_ifs with h
    · rw [parsePosition_objectFit, hp]
    · exact hp
  simp only [initVideoElement]
  by_cases hc : ((getStyle p).objectFit.isSome || (getStyle p).objectPosition.isSome) = true
  · rw [if_pos hc]
    apply h1
    simp [hf1]
  · rw [if_neg hc]

/-- Witness for C4's amended statement at concrete inputs. -/
theorem fitIt_fill_noop_witness :
    fitIt { objectFit := some "fill" } 0 = [] ∧
    initVideoElement { objectPosition := some "top" } 2 = [] :=
  ⟨fitIt_fill_noop.1 _ 0 rfl, fitIt_fill_noop.2 _ 2 rfl⟩

/-- C5: an element whose extracted style map contains neither an `object-fit`
nor an `object-position` declaration is skipped entirely: no wrapper, no
listener, no style mutation (the action list is empty). -/
theorem initVideoElement_untagged_noop (p : Props) (rs : ℕ)
    (hf : p.objectFit = none) (hp : p.objectPosition = none) :
    initVideoElement p rs = [] := by
  simp [initVideoElement, getStyle, hf, hp]

/-- Witness for C5 at the empty property map. -/
theorem initVideoElement_untagged_noop_witness :
    initVideoElement {} 0 = [] :=
  initVideoElement_untagged_noop {} 0 rfl rfl

/-- C6: on every invocation, `startWork` with a zero intrinsic width or
height reschedules itself after a fixed 50-time-unit delay and performs no
style mutation; only an invocation that observes both dimensions nonzero
applies `doWork`'s style mutation. -/
theorem startWork_retry_until_nonzero (w h ww wh : ℕ) (st : Props) :
    ((w = 0 ∨ h = 0) → startWork w h ww wh st = .retry 50) ∧
    (0 < w → 0 < h → startWork w h ww wh st = .applied (doWork w h ww wh st)) := by
  constructor
  · intro hz
    unfold startWork
    rw [if_pos hz]
  · intro hw hh
    unfold startWork
    rw [if_neg (by omega)]

/-- Witness for C6: 0×0 dimensions retry; 1920×1080 applies the sizing. -/
theorem startWork_retry_until_nonzero_witness :
    startWork 0 0 400 300 {} = .retry 50 ∧
    startWork 1920 1080 400 300 { objectFit := some "cover" } =
      .applied (doWork 1920 1080 400 300 { objectFit := some "cover" }) :=
  ⟨(startWork_retry_until_nonzero 0 0 400 300 {}).1 (Or.inl rfl),
    (startWork_retry_until_nonzero 1920 1080 400 300 _).2 (by decide) (by decide)⟩

/-- C7: the position resolver classifies each axis by case-sensitive
substring containment (`left` before `right` else `center`; `top` before
`bottom` else `center`); `"right bottom"` gives right/bottom, `"top"` gives
center/top, and an absent `object-position` leaves the keys unset while
`doWork` behaves exactly as for center/center. -/
theorem parsePosition_axis_classification :
    (∀ (st : Props) (s : String), st.objectPosition = some s →
      (parsePosition st).objectPositionX =
        some (if strContains s "left" then "left"
              else if strContains s "right" then "right" else "center") ∧
      (parsePosition st).objectPositionY =
        some (if strContains s "top" then "top"
              else if strContains s "bottom" then "bottom" else "center")) ∧
    (parsePosition { objectPosition := some "right bottom" }).objectPositionX =
      some "right" ∧
    (parsePosition { objectPosition := some "right bottom" }).objectPositionY =
      some "bottom" ∧
    (parsePosition { objectPosition := some "top" }).objectPositionX = some "center" ∧
    (parsePosition { objectPosition := some "top" }).objectPositionY = some "top" ∧
    (∀ p : Props, p.objectPosition = none → getStyle p = p) ∧
    (∀ (vw vh ww wh : ℕ) (fitv : Option String),
      doWork vw vh ww wh { objectFit := fitv } =
        doWork vw vh ww wh
          { objectFit := fitv, objectPositionX := some "center",
            objectPositionY := some "center" }) := by
  refine ⟨?_, by decide, by decide, by decide, by decide, ?_, ?_⟩
  · intro st s h
    simp only [parsePosition, h]
    constructor <;> (split_ifs <;> rfl)
  · intro p hp
    simp [getStyle, hp]
  · intro vw vh ww wh fitv
    simp [doWork]

/-- Witness for C7's universal part at the string `"left top"`. -/
theorem parsePosition_axis_classification_witness :
    (parsePosition { objectPosition := some "left top" }).objectPositionX =
      some (if strContains "left top" "left" then "left"
            else if strContains "left top" "right" then "right" else "center") :=
  (parsePosition_axis_classification.1 { objectPosition := some "left top" }
    "left top" rfl).1

/-- C8: a burst of N ≥ 1 source events before the animation-frame callback
runs sets the pending flag once, drops the other occurrences, and the frame
tick dispatches the synthetic event exactly once and clears the flag. -/
theorem throttle_burst_single_dispatch (n : ℕ) (hn : 1 ≤ n) :
    sourceEvent^[n] initThrottle =
      { running := true, framePending := true, dispatchCount := 0 } ∧
    frameTick (sourceEvent^[n] initThrottle) =
      { running := false, framePending := false, dispatchCount := 1 } := by
  have key : ∀ m : ℕ, sourceEvent^[m + 1] initThrottle =
      { running := true, framePending := true, dispatchCount := 0 } := by
    intro m
    induction m with
    | zero => rfl
    | succ k ih => rw [Function.iterate_succ_apply', ih]; rfl
  obtain ⟨m, rfl⟩ : ∃ m, n = m + 1 := ⟨n - 1, by omega⟩
  exact ⟨key m, by rw [key m]; rfl⟩

/-- Witness for C8: 100 source events in one frame yield exactly one
dispatch. -/
theorem throttle_burst_single_dispatch_witness :
    (1 : ℕ) ≤ 100 ∧
    frameTick (sourceEvent^[100] initThrottle) =
      { running := false, framePending := false, dispatchCount := 1 } :=
  ⟨by decide, (throttle_burst_single_dispatch 100 (by decide)).2⟩

/-- C9 counterexample: called with the empty string (a string argument), the
entry point does not pass it to the document query — JS truthiness reroutes
`""` to the default selector `"video"`. -/
theorem resolveVideos_empty_selector_cex :
    ¬ resolveVideos docCex (VideoArg.sel "") = docCex "" := by
  decide

/-- C9 amended: a nonempty string argument is used as a CSS selector for the
document-wide query and every matched element is processed; no argument is
equivalent to the selector `"video"`; the empty string (being JS-falsy) also
falls back to `"video"`. -/
theorem initVideos_selector_semantics (doc : String → List ℕ)
    (styleOf : ℕ → Props) (readyOf : ℕ → ℕ) :
    (∀ s : String, s ≠ "" →
      initVideos doc styleOf readyOf (VideoArg.sel s) =
        (doc s).map fun e => (e, initVideoElement (styleOf e) (readyOf e))) ∧
    initVideos doc styleOf readyOf VideoArg.undef =
      ((doc "video").map fun e => (e, initVideoElement (styleOf e) (readyOf e))) ∧
    initVideos doc styleOf readyOf (VideoArg.sel "") =
      ((doc "video").map fun e => (e, initVideoElement (styleOf e) (readyOf e))) := by
  refine ⟨?_, rfl, rfl⟩
  intro s hs
  simp only [initVideos, resolveVideos]
  rw [if_neg hs]

/-- Witness for C9's amended statement with a concrete selector. -/
theorem initVideos_selector_semantics_witness :
    ".myclass" ≠ "" ∧
    initVideos docCex (fun _ => {}) (fun _ => 0) (VideoArg.sel ".myclass") =
      ((docCex ".myclass").map fun e => (e, initVideoElement {} 0)) :=
  ⟨by decide,
    (initVideos_selector_semantics docCex (fun _ => {}) (fun _ => 0)).1 ".myclass"
      (by decide)⟩

/-- C10: when an `object-position` value contains both `left` and `right`,
`left` wins; when it contains both `top` and `bottom`, `top` wins; and both
axis keys are always assigned when a position value is present. -/
theorem parsePosition_precedence (st : Props) (s : String)
    (h : st.objectPosition = some s) :
    (strContains s "left" = true → strContains s "right" = true →
      (parsePosition st).objectPositionX = some "left") ∧
    (strContains s "top" = true → strContains s "bottom" = true →
      (parsePosition st).objectPositionY = some "top") ∧
    (parsePosition st).objectPositionX.isSome = true ∧
    (parsePosition st).objectPositionY.isSome = true := by
  refine ⟨fun hl _ => ?_, fun ht _ => ?_, ?_, ?_⟩ <;> simp only [parsePosition, h]
  · rw [if_pos hl]
    split_ifs <;> rfl
  · rw [if_pos ht]
  · split_ifs <;> rfl
  · split_ifs <;> rfl

/-- Witness for C10 at strings containing both keywords of an axis. -/
theorem parsePosition_precedence_witness :
    (parsePosition { objectPosition := some "left right" }).objectPositionX =
      some "left" ∧
    (parsePosition { objectPosition := some "top bottom" }).objectPositionY =
      some "top" :=
  ⟨(parsePosition_precedence { objectPosition := some "left right" } "left right"
      rfl).1 (by decide) (by decide),
    (parsePosition_precedence { objectPosition := some "top bottom" } "top bottom"
      rfl).2.1 (by decide) (by decide)⟩

end ObjectFitVideos
